import Mathlib

set_option maxHeartbeats 1000000
set_option maxRecDepth 8192
set_option linter.unusedVariables false
set_option linter.deprecated false

/-!
Verification development for the dub repository fragment consisting of the
sale-event zod schemas (`apps/web/lib/zod/schemas/sales.ts`) and the Bitly
bulk-import workflow (`importLinksFromBitly` and its helper `sanitizeString`).

The TypeScript is shallowly embedded: JSON values become the inductive `Json`
(numbers as rationals, since `z.number().int()` checks integrality), the zod
schemas become parsers `Option Json → Option _`, and `importLinksFromBitly`
becomes a pure function from its request arguments plus the responses of its
external collaborators (the fetched page, the persistence layer's answers, the
workspace row) to a record of the side effects it performs.
-/

/-- JSON-like values, the input domain of the zod schemas. -/
inductive Json where
  | null : Json
  | bool : Bool → Json
  | num : Rat → Json
  | str : String → Json
  | arr : List Json → Json
  | obj : List (String × Json) → Json

/-! ## The string sanitizer (`sanitizeString`, part_000 lines 10-46) -/

/-- The character class `[0-9a-fA-F]` of the problematic-escape regex. -/
def isHexDigit (c : Char) : Bool :=
  c.isDigit || decide ('a' ≤ c ∧ c ≤ 'f') || decide ('A' ≤ c ∧ c ≤ 'F')

/-- Length of the maximal run of hex digits at the head of the list. -/
def hexRun : List Char → Nat
  | [] => 0
  | c :: r => if isHexDigit c then hexRun r + 1 else 0

/-- One attempt of the regex `\\(u[0-9a-fA-F]{0,3}|x[0-9a-fA-F]?)(?![0-9a-fA-F])`
at the head of the list; returns the length of the match, if any.  The greedy
bounded quantifier followed by the negative lookahead succeeds exactly when the
maximal run of hex digits after `u` (resp. `x`) has length at most 3 (resp. 1):
with four or more digits ahead, every backtracking choice of the quantifier
leaves a hex digit for the lookahead to reject. -/
def matchTrunc : List Char → Option Nat
  | '\\' :: 'u' :: r => if hexRun r ≤ 3 then some (2 + hexRun r) else none
  | '\\' :: 'x' :: r => if hexRun r ≤ 1 then some (2 + hexRun r) else none
  | _ => none

/-- The scan of JavaScript `String.prototype.replace` with the global
problematic-escape regex: find the next match, emit the callback's result
(`match.replace("\\", "\\\\")`, i.e. the match with its leading backslash
doubled), and resume the search after the match. -/
def jsReplace : List Char → List Char
  | [] => []
  | c :: r =>
    match h : matchTrunc (c :: r) with
    | some n => '\\' :: ((c :: r).take n ++ jsReplace ((c :: r).drop n))
    | none => c :: jsReplace r
termination_by l => l.length
decreasing_by
  all_goals simp_wf
  have h2 : 2 ≤ n := by
    unfold matchTrunc at h
    split at h
    all_goals try split at h
    all_goals simp_all
    all_goals omega
  have h3 := List.length_drop n (c :: r)
  simp at h3
  omega

/-- The same replacement computed one position at a time (test the regex at
every position; positions strictly inside a match contain no backslash and so
never match themselves, which makes the two scans agree —
`scanReplace_eq_jsReplace` below proves it).  The structural recursion keeps
the function kernel-reducible. -/
def scanReplace : List Char → List Char
  | [] => []
  | c :: r =>
    if (matchTrunc (c :: r)).isSome then '\\' :: c :: scanReplace r
    else c :: scanReplace r

/-- `sanitizeString` (part_000 lines 10-46).  `none` models the `null`
and `undefined` inputs, which the falsy guard returns unchanged, as it does
the empty string.  The `.test` call and the logging loop do not affect the
result, and the `catch` fallback is unreachable for string input (the `replace`
call cannot throw), so neither appears in the embedding. -/
def sanitizeString : Option String → Option String
  | none => none
  | some s => if s = "" then some s else some ⟨scanReplace s.data⟩

/-- The claims' notion of a truncated escape at the head of the list: a
backslash followed by `u` and fewer than four hex digits, or by `x` and fewer
than two hex digits, in either case not followed by another hex digit. -/
def truncEscapeHead : List Char → Bool
  | '\\' :: 'u' :: r => decide (hexRun r < 4)
  | '\\' :: 'x' :: r => decide (hexRun r < 2)
  | _ => false

/-- Does the list contain a truncated escape at any position? -/
def containsTrunc : List Char → Bool
  | [] => false
  | c :: r => truncEscapeHead (c :: r) || containsTrunc r

/-- Number of positions at which a truncated escape starts. -/
def numOcc : List Char → Nat
  | [] => 0
  | c :: r => (if truncEscapeHead (c :: r) then 1 else 0) + numOcc r

/-! ## The import workflow (`importLinksFromBitly`, part_000 lines 49-299) -/

/-- The hostname/pathname view of a parsed URL, what the workflow reads off
`new URL(...)`. -/
structure UrlParts where
  hostname : String
  pathname : String
deriving DecidableEq

/-- The ambient JavaScript platform facilities the workflow calls:
`new URL` (returning `none` where the constructor would throw) and
`new Date(...).toISOString()`.  Both are external to the repository, so the
embedding abstracts over them. -/
structure JsEnv where
  parseURL : String → Option UrlParts
  toISO : String → String

/-- One record of the Bitly page response, as destructured by the workflow. -/
structure BitlyLink where
  id : String
  long_url : String
  title : Option String
  archived : Bool
  created_at : String
  custom_bitlinks : Option (List String)
  tags : List String
deriving DecidableEq

/-- The persistence-ready link shape built by the transform. -/
structure NormalizedLink where
  projectId : String
  userId : String
  domain : String
  key : Option String
  url : String
  shortLink : String
  title : Option String
  archived : Bool
  createdAt : String
  tagIds : List (Option String)
  folderId : Option String
deriving DecidableEq

/-- Modelled from the spec: `linkConstructorSimple` (from `@dub/utils`, not
under src/) builds the externally visible short link from the domain+key pair
("Short link: the externally visible domain+key pair identifying a
redirect"). A destructured `id` without a `/` leaves `key` undefined in the
source; the model keeps it as an `Option`. -/
def linkConstructorSimple (domain : String) (key : Option String) : String :=
  domain ++ "/" ++ key.getD "undefined"

/-- Splitting accumulator for `jsSplitSlash`. -/
def splitSlashAux : List Char → List Char → List String
  | [], acc => [⟨acc.reverse⟩]
  | c :: r, acc =>
    if c = '/' then ⟨acc.reverse⟩ :: splitSlashAux r []
    else splitSlashAux r (c :: acc)

/-- JavaScript `id.split("/")`: the list of `/`-separated segments (never
empty; `""` splits to `[""]`). -/
def jsSplitSlash (s : String) : List String := splitSlashAux s.data []

/-- The `linkDetails` record built for a Bitly record that passed the guards
(part_000 lines 111-128). -/
def primaryOf (env : JsEnv) (workspaceId userId : String) (folderId : Option String)
    (tagsToId : Option (List (String × String))) (link : BitlyLink) : NormalizedLink :=
  let parts := jsSplitSlash link.id
  let domain := parts.headD ""
  let key := parts[1]?
  { projectId := workspaceId
    userId := userId
    domain := domain
    key := key
    url := (sanitizeString (some link.long_url)).getD ""
    shortLink := linkConstructorSimple domain key
    title := sanitizeString link.title
    archived := link.archived
    createdAt := env.toISO link.created_at
    tagIds :=
      match tagsToId with
      | some m => link.tags.map (fun t => m.lookup t)
      | none => []
    folderId := folderId }

/-- The alias filter (part_000 lines 134-146): keep the custom bitlinks that
parse as URLs and whose hostname is among the workspace domains. -/
def validAliases (env : JsEnv) (domains : List String) (link : BitlyLink) : List String :=
  (link.custom_bitlinks.getD []).filter (fun cb =>
    match env.parseURL cb with
    | some u => domains.contains u.hostname
    | none => false)

/-- The alias map step (part_000 lines 147-171): re-parse the custom bitlink
and copy `linkDetails` with the alias's domain and key; the `catch` branch
returns `null` (here `none`), removed afterwards by `.filter(Boolean)`. -/
def aliasEntry (env : JsEnv) (base : NormalizedLink) (cb : String) : Option NormalizedLink :=
  match env.parseURL cb with
  | some u =>
      some { base with
              domain := u.hostname
              key := some (u.pathname.drop 1)
              shortLink := linkConstructorSimple u.hostname (some (u.pathname.drop 1)) }
  | none => none

/-- The body of the `links.flatMap` transform (part_000 lines 85-175): guards
on a missing id or URL, on the domain, and on the URL emptying under
sanitization, then the primary entry followed by the surviving alias copies. -/
def processLink (env : JsEnv) (workspaceId userId : String) (domains : List String)
    (folderId : Option String) (tagsToId : Option (List (String × String)))
    (link : BitlyLink) : List NormalizedLink :=
  if link.id == "" || link.long_url == "" then []
  else if !(domains.contains ((jsSplitSlash link.id).headD "")) then []
  else if (sanitizeString (some link.long_url)).getD "" == "" then []
  else
    primaryOf env workspaceId userId folderId tagsToId link
      :: ((validAliases env domains link).map
            (aliasEntry env (primaryOf env workspaceId userId folderId tagsToId link))).filterMap id

/-- `processLink` with the "URL empty after sanitization" discard branch
removed; compared with `processLink` to show that branch unreachable. -/
def processLinkNoEmptyGuard (env : JsEnv) (workspaceId userId : String)
    (domains : List String) (folderId : Option String)
    (tagsToId : Option (List (String × String))) (link : BitlyLink) : List NormalizedLink :=
  if link.id == "" || link.long_url == "" then []
  else if !(domains.contains ((jsSplitSlash link.id).headD "")) then []
  else
    primaryOf env workspaceId userId folderId tagsToId link
      :: ((validAliases env domains link).map
            (aliasEntry env (primaryOf env workspaceId userId folderId tagsToId link))).filterMap id

/-- The `prisma.link.findMany` dedupe query (part_000 lines 178-187): the
persistence layer, modelled as the list `db` of all stored short links,
returns its records whose short link occurs in the batch. -/
def alreadyCreatedLinks (db : List String) (imported : List NormalizedLink) : List String :=
  db.filter (fun sl => imported.any (fun l => l.shortLink == sl))

/-- The dedupe filter (part_000 lines 190-192): keep the batch entries whose
short link matches none of the records the query returned. -/
def linksToCreate (db : List String) (imported : List NormalizedLink) : List NormalizedLink :=
  imported.filter (fun link => !((alreadyCreatedLinks db imported).any (fun sl => sl == link.shortLink)))

/-- A row of the tag table, as far as the finalization's
`prisma.tag.deleteMany({where: {projectId, links: {none: {}}}})` observes it. -/
structure Tag where
  projectId : String
  linkCount : Nat
deriving DecidableEq

/-- A sample link row of the completion email's workspace query. -/
structure SampleLink where
  domain : String
  key : String
  createdAt : String
deriving DecidableEq

/-- The `prisma.project.findUnique` result used by finalization: name, slug,
the owner-role users' emails (an email may be `null`), and the bounded recent
links sample. -/
structure WorkspaceInfo where
  name : String
  slug : String
  users : List (Option String)
  links : List SampleLink
deriving DecidableEq

/-- The payload of the completion email (part_000 lines 269-281). -/
structure EmailPayload where
  subject : String
  email : String
  provider : String
  count : Nat
  links : List SampleLink
  domains : List String
  workspaceName : String
  workspaceSlug : String
deriving DecidableEq

/-- The JSON body published to the continuation endpoint
(part_000 lines 287-296). -/
structure PublishBody where
  workspaceId : String
  userId : String
  bitlyGroup : String
  domains : List String
  folderId : Option String
  importTags : Bool
  searchAfter : String
  count : Nat
deriving DecidableEq

/-- A queue message: target URL and JSON body. -/
structure PublishMsg where
  url : String
  body : PublishBody
deriving DecidableEq

/-- Modelled from the spec: `APP_DOMAIN_WITH_NGROK` (from `@dub/utils`, not
under src/) is the fixed application origin prepended to the internal
continuation endpoint. -/
def APP_DOMAIN_WITH_NGROK : String := "https://app.dub.co"

/-- One page of the Bitly API response: the records and
`pagination.search_after`. -/
structure ImportPage where
  links : List BitlyLink
  search_after : String
deriving DecidableEq

/-- The side effects of one invocation: the batch passed to `bulkCreateLinks`,
the redis keys deleted, the tag table after the `deleteMany`, the email sent,
the queue message published, and the value returned (`some` of the cumulative
count on the completion path). -/
structure ImportEffects where
  bulkCreated : List NormalizedLink
  redisDeleted : List String
  tagsAfter : List Tag
  emailSent : Option EmailPayload
  published : Option PublishMsg
  returned : Option Nat
deriving DecidableEq

/-- `importLinksFromBitly` (part_000 lines 49-299) as a function of the request
arguments and the collaborators' responses.  The result is `none` exactly when
the invocation throws: reading `.user` of `users[0]` with an owner-less
workspace row.  The fetch URL construction, the rate-limit sleep and the
logging produce no modelled effect. -/
def importLinksFromBitly (env : JsEnv) (workspaceId userId bitlyGroup : String)
    (domains : List String) (folderId : Option String)
    (tagsToId : Option (List (String × String))) (bitlyApiKey : String)
    (searchAfter : Option String) (count : Nat)
    (page : ImportPage) (db : List String) (tagTable : List Tag)
    (workspace : Option WorkspaceInfo) : Option ImportEffects :=
  let importedLinks := page.links.bind (processLink env workspaceId userId domains folderId tagsToId)
  let toCreate := linksToCreate db importedLinks
  let count2 := count + importedLinks.length
  if page.search_after = "" then
    match workspace with
    | some w =>
      match w.users with
      | [] => none
      | u0 :: _ =>
        some { bulkCreated := toCreate
               redisDeleted := ["import:bitly:" ++ workspaceId,
                                "import:bitly:" ++ workspaceId ++ ":tags"]
               tagsAfter := tagTable.filter (fun t =>
                 !(t.projectId == workspaceId && t.linkCount == 0))
               emailSent := some
                 { subject := "Your Bitly links have been imported!"
                   email := u0.getD ""
                   provider := "Bitly"
                   count := count2
                   links := w.links
                   domains := domains
                   workspaceName := w.name
                   workspaceSlug := w.slug }
               published := none
               returned := some count2 }
    | none =>
      some { bulkCreated := toCreate
             redisDeleted := ["import:bitly:" ++ workspaceId,
                              "import:bitly:" ++ workspaceId ++ ":tags"]
             tagsAfter := tagTable.filter (fun t =>
               !(t.projectId == workspaceId && t.linkCount == 0))
             emailSent := some
               { subject := "Your Bitly links have been imported!"
                 email := ""
                 provider := "Bitly"
                 count := count2
                 links := []
                 domains := domains
                 workspaceName := ""
                 workspaceSlug := "" }
             published := none
             returned := some count2 }
  else
    some { bulkCreated := toCreate
           redisDeleted := []
           tagsAfter := tagTable
           emailSent := none
           published := some
             { url := APP_DOMAIN_WITH_NGROK ++ "/api/cron/import/bitly"
               body := { workspaceId := workspaceId
                         userId := userId
                         bitlyGroup := bitlyGroup
                         domains := domains
                         folderId := folderId
                         importTags := tagsToId.isSome
                         searchAfter := page.search_after
                         count := count2 } }
           returned := none }

/-! ## The zod schemas (`sales.ts`) -/

/-- JavaScript whitespace trimmed by `String.prototype.trim` (the ASCII
subset; the full set also has exotic Unicode spaces, irrelevant here). -/
def isJsSpace (c : Char) : Bool :=
  c == ' ' || c == '\t' || c == '\n' || c == '\r' || c == '\x0b' || c == '\x0c'

/-- JavaScript `s.trim()`: drop leading and trailing whitespace. -/
def jsTrim (s : String) : String :=
  ⟨((s.data.dropWhile isJsSpace).reverse.dropWhile isJsSpace).reverse⟩

/-- `trackSaleRequestSchema.customerId`:
`z.string().trim().min(1).max(100)` — must be a string; the trimmed value is
the parse result and is length-checked. -/
def zCustomerId : Option Json → Option String
  | some (.str s) =>
      if 1 ≤ (jsTrim s).length ∧ (jsTrim s).length ≤ 100 then some (jsTrim s) else none
  | _ => none

/-- `trackSaleRequestSchema.amount`: `z.number().int().positive()`. -/
def zAmount : Option Json → Option Rat
  | some (.num q) => if q.den = 1 ∧ 0 < q then some q else none
  | _ => none

/-- `trackSaleRequestSchema.paymentProcessor`:
`z.enum(["stripe", "shopify", "paddle"])`. -/
def zPaymentProcessor : Option Json → Option String
  | some (.str s) =>
      if s = "stripe" ∨ s = "shopify" ∨ s = "paddle" then some s else none
  | _ => none

/-- `trackSaleRequestSchema.eventName`:
`z.string().max(50).optional().default("Purchase")`. -/
def zEventName : Option Json → Option String
  | none => some "Purchase"
  | some (.str s) => if s.length ≤ 50 then some s else none
  | some _ => none

/-- `trackSaleRequestSchema.invoiceId`: `z.string().nullish().default(null)`. -/
def zInvoiceId : Option Json → Option (Option String)
  | none => some none
  | some .null => some none
  | some (.str s) => some (some s)
  | some _ => none

/-- `trackSaleRequestSchema.currency`: `z.string().default("usd")`. -/
def zCurrency : Option Json → Option String
  | none => some "usd"
  | some (.str s) => some s
  | some _ => none

/-- `trackSaleRequestSchema.metadata`:
`z.record(z.unknown()).nullish().default(null)`. -/
def zMetadata : Option Json → Option (Option Json)
  | none => some none
  | some .null => some none
  | some (.obj f) => some (some (.obj f))
  | some _ => none

/-- A raw request body for the track-sale schema, one `Option Json` per
declared key (`none` = key absent; zod strips unknown keys, so other keys
cannot affect acceptance). -/
structure RawTrackSale where
  customerId : Option Json
  amount : Option Json
  paymentProcessor : Option Json
  eventName : Option Json
  invoiceId : Option Json
  currency : Option Json
  metadata : Option Json

/-- The parse result of `trackSaleRequestSchema`. -/
structure ParsedTrackSale where
  customerId : String
  amount : Rat
  paymentProcessor : String
  eventName : String
  invoiceId : Option String
  currency : String
  metadata : Option Json

/-- `trackSaleRequestSchema.parse`: succeeds exactly when every field parser
succeeds. -/
def parseTrackSale (i : RawTrackSale) : Option ParsedTrackSale :=
  match zCustomerId i.customerId, zAmount i.amount, zPaymentProcessor i.paymentProcessor,
        zEventName i.eventName, zInvoiceId i.invoiceId, zCurrency i.currency,
        zMetadata i.metadata with
  | some cid, some amt, some pp, some en, some inv, some cur, some md =>
      some { customerId := cid, amount := amt, paymentProcessor := pp,
             eventName := en, invoiceId := inv, currency := cur, metadata := md }
  | _, _, _, _, _, _, _ => none

/-- The acceptance condition of the track-sale request schema as claim C7
states it, for a body whose optional keys are omitted: customerId a string
non-empty after trimming and at most 100 characters, amount a positive
integer, paymentProcessor one of the three processors. -/
def claimAcceptsTrackSale (c a p : Option Json) : Bool :=
  (match c with
   | some (.str s) => decide (1 ≤ (jsTrim s).length ∧ (jsTrim s).length ≤ 100)
   | _ => false) &&
  (match a with
   | some (.num q) => decide (q.den = 1 ∧ 0 < q)
   | _ => false) &&
  (match p with
   | some (.str s) => decide (s = "stripe" ∨ s = "shopify" ∨ s = "paddle")
   | _ => false)

/-- Lookup of a key in a JSON object's field list. -/
def lookupField (fields : List (String × Json)) (k : String) : Option Json :=
  (fields.find? (fun p => p.1 == k)).map (fun p => p.2)

/-- Is the value a present string? -/
def isStrField : Option Json → Bool
  | some (.str _) => true
  | _ => false

/-- Is the value a present number? -/
def isNumField : Option Json → Bool
  | some (.num _) => true
  | _ => false

/-- Is the value a present object? -/
def isObjField : Option Json → Bool
  | some (.obj _) => true
  | _ => false

/-- Modelled from the spec: `linkEventSchema` (defined outside src/) validates
the nested link event object; the spec describes it only as the nested link
shape, constraining none of the sale fields, so it is modelled as requiring an
object. -/
def linkEventOk (j : Option Json) : Bool := isObjField j

/-- Modelled from the spec: `clickEventSchema` (defined outside src/) validates
the nested click event object; modelled as requiring an object. -/
def clickEventOk (j : Option Json) : Bool := isObjField j

/-- Modelled from the spec: `customerSchema` (defined outside src/) validates
the nested customer object; modelled as requiring an object. -/
def customerOk (j : Option Json) : Bool := isObjField j

/-- A raw sale-event API response restricted to the keys
`saleEventResponseSchema` itself declares (sales.ts lines 112-140).  The fields
merged in from `commonDeprecatedEventFields` (defined outside src/; per the
spec, deprecated shims of click fields) constrain none of these keys and are
omitted. -/
structure RawSaleEvent where
  event : Option Json
  timestamp : Option Json
  eventId : Option Json
  eventName : Option Json
  link : Option Json
  click : Option Json
  customer : Option Json
  sale : Option Json
  saleAmount : Option Json
  invoice_id : Option Json
  payment_processor : Option Json

/-- Acceptance by `saleEventResponseSchema` on its own keys: the literal
`"sale"` event tag; `z.coerce.string()` for the timestamp (coercion never
rejects); plain strings for eventId and eventName; the nested object schemas;
the picked `{amount, invoiceId, paymentProcessor}` subset of the track-sale
schema for `sale`; and the deprecated `saleAmount` (any number), `invoice_id`
(any string) and `payment_processor` (any string). -/
def saleEventAccepts (r : RawSaleEvent) : Bool :=
  (match r.event with
   | some (.str s) => s == "sale"
   | _ => false) &&
  isStrField r.eventId && isStrField r.eventName &&
  linkEventOk r.link && clickEventOk r.click && customerOk r.customer &&
  (match r.sale with
   | some (.obj f) =>
       (zAmount (lookupField f "amount")).isSome &&
       (zInvoiceId (lookupField f "invoiceId")).isSome &&
       (zPaymentProcessor (lookupField f "paymentProcessor")).isSome
   | _ => false) &&
  isNumField r.saleAmount && isStrField r.invoice_id && isStrField r.payment_processor

/-- The deprecated top-level sale amount, as a number. -/
def topSaleAmount (r : RawSaleEvent) : Option Rat :=
  match r.saleAmount with
  | some (.num q) => some q
  | _ => none

/-- The canonical nested `sale.amount`, as a number. -/
def nestedSaleAmount (r : RawSaleEvent) : Option Rat :=
  match r.sale with
  | some (.obj f) =>
      match lookupField f "amount" with
      | some (.num q) => some q
      | _ => none
  | _ => none

/-- The deprecated top-level `invoice_id`, as a string. -/
def topInvoiceId (r : RawSaleEvent) : Option String :=
  match r.invoice_id with
  | some (.str s) => some s
  | _ => none

/-- The canonical nested `sale.invoiceId`, as a string. -/
def nestedInvoiceId (r : RawSaleEvent) : Option String :=
  match r.sale with
  | some (.obj f) =>
      match lookupField f "invoiceId" with
      | some (.str s) => some s
      | _ => none
  | _ => none

/-- The deprecated top-level `payment_processor`, as a string. -/
def topPaymentProcessor (r : RawSaleEvent) : Option String :=
  match r.payment_processor with
  | some (.str s) => some s
  | _ => none

/-- The canonical nested `sale.paymentProcessor`, as a string. -/
def nestedPaymentProcessor (r : RawSaleEvent) : Option String :=
  match r.sale with
  | some (.obj f) =>
      match lookupField f "paymentProcessor" with
      | some (.str s) => some s
      | _ => none
  | _ => none

/-! ## Concrete instances used by counterexamples and witnesses -/

/-- A trivial platform environment: no URL parses, dates unchanged. -/
def cEnv : JsEnv := ⟨fun _ => none, fun s => s⟩

/-- A platform environment with a small concrete URL parser. -/
def cAliasEnv : JsEnv :=
  ⟨fun s =>
    if s = "https://d.co/a1" then some ⟨"d.co", "/a1"⟩
    else if s = "https://other.com/b" then some ⟨"other.com", "/b"⟩
    else none,
   fun s => s⟩

/-- A Bitly record with three custom bitlinks: one on a claimed domain, one on
a foreign domain, one that does not parse. -/
def cLinkAliases : BitlyLink :=
  { id := "d.co/k", long_url := "https://example.com/page", title := some "t"
    archived := false, created_at := "2024-01-01"
    custom_bitlinks := some ["https://d.co/a1", "https://other.com/b", "notaurl"]
    tags := [] }

/-- A Bitly record with no custom bitlinks. -/
def cLinkPlain : BitlyLink :=
  { id := "d.co/k", long_url := "https://example.com/page", title := none
    archived := false, created_at := "2024-01-01"
    custom_bitlinks := none, tags := [] }

/-- A page with one record and an exhausted cursor. -/
def cPageDone : ImportPage := ⟨[cLinkPlain], ""⟩

/-- An empty page with a non-empty next cursor. -/
def cPageMore : ImportPage := ⟨[], "xyz"⟩

/-- The continuation message published for `cPageMore` by either of the two
runs of the C2 counterexample. -/
def cMsgMore : PublishMsg :=
  ⟨APP_DOMAIN_WITH_NGROK ++ "/api/cron/import/bitly",
   ⟨"ws1", "u1", "grp", ["d.co"], none, true, "xyz", 0⟩⟩

/-- A workspace row with one owner. -/
def cWorkspace : WorkspaceInfo :=
  { name := "Acme", slug := "acme", users := [some "owner@acme.io"]
    links := [⟨"d.co", "k", "2024-01-01"⟩] }

/-- A tag table with zero-link and linked tags of two workspaces. -/
def cTags : List Tag := [⟨"ws1", 0⟩, ⟨"ws1", 2⟩, ⟨"other", 0⟩]

/-- A normalized link used by the C9 witness. -/
def cNorm : NormalizedLink :=
  { projectId := "ws1", userId := "u1", domain := "d.co", key := some "k"
    url := "https://example.com", shortLink := "d.co/k", title := none
    archived := false, createdAt := "2024-01-01", tagIds := [], folderId := none }

/-- An accepted sale-event response whose deprecated fields disagree with the
canonical nested sale fields. -/
def cSaleEvent : RawSaleEvent :=
  { event := some (.str "sale")
    timestamp := some (.str "2024-01-01T00:00:00Z")
    eventId := some (.str "evt_1")
    eventName := some (.str "Purchase")
    link := some (.obj [])
    click := some (.obj [])
    customer := some (.obj [])
    sale := some (.obj [("amount", .num 3), ("invoiceId", .null),
                        ("paymentProcessor", .str "stripe")])
    saleAmount := some (.num 5)
    invoice_id := some (.str "inv-A")
    payment_processor := some (.str "paypal") }

/-- The effects of the C8 witness run: one fetched record whose short link is
already stored, empty-cursor page, no workspace row — the count still rises
to 1 while nothing is inserted. -/
def cEffDup : ImportEffects :=
  { bulkCreated := []
    redisDeleted := ["import:bitly:ws1", "import:bitly:ws1:tags"]
    tagsAfter := []
    emailSent := some
      { subject := "Your Bitly links have been imported!"
        email := ""
        provider := "Bitly"
        count := 1
        links := []
        domains := ["d.co"]
        workspaceName := ""
        workspaceSlug := "" }
    published := none
    returned := some 1 }

/-! ## Sanitizer lemmas -/

theorem matchTrunc_none_of_ne (c : Char) (r : List Char) (h : c ≠ '\\') :
    matchTrunc (c :: r) = none := by
  unfold matchTrunc
  split <;> simp_all

theorem truncEscapeHead_false_of_ne (c : Char) (r : List Char) (h : c ≠ '\\') :
    truncEscapeHead (c :: r) = false := by
  unfold truncEscapeHead
  split <;> simp_all

theorem matchTrunc_isSome_eq (l : List Char) :
    (matchTrunc l).isSome = truncEscapeHead l := by
  unfold matchTrunc truncEscapeHead
  split
  · rename_i t
    by_cases h : hexRun t ≤ 3 <;> simp [h] <;> omega
  · rename_i t
    by_cases h : hexRun t ≤ 1 <;> simp [h] <;> omega
  · simp

theorem trunc_head_eq_backslash {c : Char} {r : List Char}
    (h : truncEscapeHead (c :: r) = true) : c = '\\' := by
  by_contra hc
  rw [truncEscapeHead_false_of_ne c r hc] at h
  exact absurd h (by decide)

theorem trunc_second {c d : Char} {t : List Char}
    (h : truncEscapeHead (c :: d :: t) = true) : d = 'u' ∨ d = 'x' := by
  unfold truncEscapeHead at h
  split at h <;> simp_all

theorem truncEscapeHead_u (t : List Char) :
    truncEscapeHead ('\\' :: 'u' :: t) = decide (hexRun t < 4) := rfl

theorem truncEscapeHead_x (t : List Char) :
    truncEscapeHead ('\\' :: 'x' :: t) = decide (hexRun t < 2) := rfl

theorem scanReplace_nil : scanReplace [] = [] := rfl

theorem scanReplace_cons (c : Char) (r : List Char) :
    scanReplace (c :: r) =
      if (matchTrunc (c :: r)).isSome then '\\' :: c :: scanReplace r
      else c :: scanReplace r := rfl

theorem scanReplace_cons_trunc (c : Char) (r : List Char) :
    scanReplace (c :: r) =
      if truncEscapeHead (c :: r) = true then '\\' :: c :: scanReplace r
      else c :: scanReplace r := by
  rw [scanReplace_cons, matchTrunc_isSome_eq]

theorem scanReplace_append_hex {p : List Char} (b : List Char)
    (hp : ∀ c ∈ p, isHexDigit c = true) :
    scanReplace (p ++ b) = p ++ scanReplace b := by
  induction p with
  | nil => simp
  | cons c p ih =>
    have hc : c ≠ '\\' := by
      intro hc
      subst hc
      exact absurd (hp '\\' (by simp)) (by decide)
    rw [List.cons_append, scanReplace_cons, matchTrunc_none_of_ne _ _ hc]
    simp [ih (fun x hx => hp x (by simp [hx]))]

theorem mem_take_hexRun_hex (r : List Char) :
    ∀ c ∈ r.take (hexRun r), isHexDigit c = true := by
  induction r with
  | nil => simp
  | cons a r ih =>
    by_cases ha : isHexDigit a = true
    · rw [show hexRun (a :: r) = hexRun r + 1 by simp [hexRun, ha]]
      intro c hc
      rw [List.take_succ_cons] at hc
      rcases List.mem_cons.mp hc with h | h
      · subst h; exact ha
      · exact ih c h
    · rw [show hexRun (a :: r) = 0 by simp [hexRun, ha]]
      simp

theorem hexRun_le_length (r : List Char) : hexRun r ≤ r.length := by
  induction r with
  | nil => simp [hexRun]
  | cons a r ih =>
    by_cases ha : isHexDigit a = true <;> simp [hexRun, ha] <;> omega

theorem le_hexRun_append {p : List Char} (b : List Char)
    (hp : ∀ c ∈ p, isHexDigit c = true) :
    p.length ≤ hexRun (p ++ b) := by
  induction p with
  | nil => simp
  | cons c p ih =>
    have h1 : hexRun (c :: (p ++ b)) = hexRun (p ++ b) + 1 := by
      simp [hexRun, hp c (by simp)]
    have h2 := ih (fun x hx => hp x (by simp [hx]))
    simp only [List.cons_append, h1, List.length_cons]
    omega

theorem hexRun_le_scanReplace (l : List Char) : hexRun l ≤ hexRun (scanReplace l) := by
  have h1 : scanReplace l = l.take (hexRun l) ++ scanReplace (l.drop (hexRun l)) := by
    conv_lhs => rw [← List.take_append_drop (hexRun l) l]
    exact scanReplace_append_hex _ (mem_take_hexRun_hex l)
  have h2 := le_hexRun_append (scanReplace (l.drop (hexRun l))) (mem_take_hexRun_hex l)
  have h3 : (l.take (hexRun l)).length = hexRun l := by
    simp [List.length_take, Nat.min_eq_left (hexRun_le_length l)]
  rw [h1]
  omega

theorem scanReplace_of_not_contains {l : List Char} (h : containsTrunc l = false) :
    scanReplace l = l := by
  induction l with
  | nil => rfl
  | cons c r ih =>
    have h2 : truncEscapeHead (c :: r) = false ∧ containsTrunc r = false := by
      have := h
      unfold containsTrunc at this
      exact Bool.or_eq_false_iff.mp this
    rw [scanReplace_cons_trunc, if_neg (by simp [h2.1]), ih h2.2]

theorem length_scanReplace (l : List Char) :
    (scanReplace l).length = l.length + numOcc l := by
  induction l with
  | nil => rfl
  | cons c r ih =>
    rw [scanReplace_cons_trunc]
    by_cases h : truncEscapeHead (c :: r) = true <;>
      simp [h, numOcc, ih] <;> omega

theorem length_le_scanReplace (l : List Char) : l.length ≤ (scanReplace l).length := by
  rw [length_scanReplace]
  omega

theorem matchTrunc_inv {l : List Char} {k : Nat} (h : matchTrunc l = some k) :
    (∃ t, l = '\\' :: 'u' :: t ∧ hexRun t ≤ 3 ∧ k = 2 + hexRun t) ∨
    (∃ t, l = '\\' :: 'x' :: t ∧ hexRun t ≤ 1 ∧ k = 2 + hexRun t) := by
  unfold matchTrunc at h
  split at h
  · rename_i t
    split at h
    · left
      exact ⟨t, rfl, by assumption, by injection h with h2; omega⟩
    · simp_all
  · rename_i t
    split at h
    · right
      exact ⟨t, rfl, by assumption, by injection h with h2; omega⟩
    · simp_all
  · simp_all

theorem jsReplace_nil : jsReplace [] = [] := by
  rw [jsReplace.eq_def]

theorem jsReplace_cons_none {c : Char} {r : List Char}
    (h : matchTrunc (c :: r) = none) : jsReplace (c :: r) = c :: jsReplace r := by
  conv_lhs => rw [jsReplace.eq_def]
  split
  · simp_all
  · split <;> simp_all

theorem jsReplace_cons_some {c : Char} {r : List Char} {k : Nat}
    (h : matchTrunc (c :: r) = some k) :
    jsReplace (c :: r) = '\\' :: ((c :: r).take k ++ jsReplace ((c :: r).drop k)) := by
  conv_lhs => rw [jsReplace.eq_def]
  split
  · simp_all
  · split <;> simp_all

theorem scanReplace_eq_jsReplace (l : List Char) : scanReplace l = jsReplace l := by
  have H : ∀ n, ∀ l : List Char, l.length ≤ n → scanReplace l = jsReplace l := by
    intro n
    induction n with
    | zero =>
      intro l hl
      have h0 : l = [] := List.length_eq_zero.mp (Nat.le_zero.mp hl)
      subst h0
      rw [scanReplace_nil, jsReplace_nil]
    | succ n ih =>
      intro l hl
      cases l with
      | nil => rw [scanReplace_nil, jsReplace_nil]
      | cons c r =>
        cases hm : matchTrunc (c :: r) with
        | none =>
          rw [jsReplace_cons_none hm, scanReplace_cons, hm]
          simp only [Option.isSome_none, Bool.false_eq_true, if_false]
          have : r.length ≤ n := by simp at hl; omega
          rw [ih r this]
        | some k =>
          rw [jsReplace_cons_some hm, scanReplace_cons, hm]
          simp only [Option.isSome_some, if_true]
          rcases matchTrunc_inv hm with ⟨t, hlz, hh, hk⟩ | ⟨t, hlz, hh, hk⟩ <;>
          · obtain ⟨rfl, rfl⟩ : c = '\\' ∧ r = _ :: t := by
              constructor <;> injection hlz with h1 h2 <;> simp_all
            subst hk
            rw [scanReplace_cons, matchTrunc_none_of_ne _ _ (by decide)]
            simp only [Option.isSome_none, Bool.false_eq_true, if_false]
            have hsp : scanReplace t = t.take (hexRun t) ++ scanReplace (t.drop (hexRun t)) := by
              conv_lhs => rw [← List.take_append_drop (hexRun t) t]
              exact scanReplace_append_hex _ (mem_take_hexRun_hex t)
            have hlen : (t.drop (hexRun t)).length ≤ n := by
              simp at hl
              have := List.length_drop (hexRun t) t
              omega
            rw [hsp, ih _ hlen, show 2 + hexRun t = hexRun t + 2 by omega]
            simp [List.take_succ_cons, List.drop_succ_cons]
  exact H l.length l (le_refl _)

theorem scanReplace_escaped (l : List Char) : ∀ i : Nat,
    truncEscapeHead ((scanReplace l).drop i) = true →
    1 ≤ i ∧ (scanReplace l).get? (i - 1) = some '\\' := by
  induction l with
  | nil =>
    intro i h
    rw [scanReplace_nil, List.drop_nil] at h
    exact absurd h (by decide)
  | cons c r ih =>
    intro i h
    cases ht : truncEscapeHead (c :: r) with
    | true =>
      have hc := trunc_head_eq_backslash ht
      subst hc
      rw [scanReplace_cons_trunc, if_pos ht] at h ⊢
      rcases i with _ | _ | _ | m
      · exfalso
        rcases trunc_second h with h2 | h2 <;> exact absurd h2 (by decide)
      · exact ⟨le_refl 1, by simp⟩
      · exact ⟨by omega, by simp⟩
      · have h2 : truncEscapeHead ((scanReplace r).drop (m + 1)) = true := by
          simpa using h
        have h3 := ih (m + 1) h2
        exact ⟨by omega, by simpa using h3.2⟩
    | false =>
      rw [scanReplace_cons_trunc, if_neg (by simp [ht])] at h ⊢
      rcases i with _ | m
      · exfalso
        simp only [List.drop_zero] at h
        have hc := trunc_head_eq_backslash h
        subst hc
        cases r with
        | nil => exact absurd h (by decide)
        | cons d t =>
          by_cases hd : d = '\\'
          · subst hd
            rw [scanReplace_cons_trunc] at h
            by_cases h2 : truncEscapeHead ('\\' :: t) = true
            · rw [if_pos h2] at h
              rcases trunc_second h with h3 | h3 <;> exact absurd h3 (by decide)
            · rw [if_neg h2] at h
              rcases trunc_second h with h3 | h3 <;> exact absurd h3 (by decide)
          · by_cases hu : d = 'u'
            · subst hu
              have h4 : ¬ hexRun t < 4 := by
                rw [truncEscapeHead_u] at ht
                simpa using ht
              have h5 : scanReplace ('u' :: t) = 'u' :: scanReplace t := by
                rw [scanReplace_cons, matchTrunc_none_of_ne _ _ (by decide)]
                simp
              rw [h5, truncEscapeHead_u] at h
              have h6 : hexRun (scanReplace t) < 4 := by simpa using h
              have h7 := hexRun_le_scanReplace t
              omega
            · by_cases hx : d = 'x'
              · subst hx
                have h4 : ¬ hexRun t < 2 := by
                  rw [truncEscapeHead_x] at ht
                  simpa using ht
                have h5 : scanReplace ('x' :: t) = 'x' :: scanReplace t := by
                  rw [scanReplace_cons, matchTrunc_none_of_ne _ _ (by decide)]
                  simp
                rw [h5, truncEscapeHead_x] at h
                have h6 : hexRun (scanReplace t) < 2 := by simpa using h
                have h7 := hexRun_le_scanReplace t
                omega
              · have h5 : scanReplace (d :: t) = d :: scanReplace t := by
                  rw [scanReplace_cons, matchTrunc_none_of_ne _ _ hd]
                  simp
                rw [h5] at h
                rcases trunc_second h with h3 | h3
                · exact hu h3
                · exact hx h3
      · have h2 : truncEscapeHead ((scanReplace r).drop m) = true := by
          simpa using h
        have h3 := ih m h2
        rcases m with _ | k
        · exact absurd h3.1 (by omega)
        · exact ⟨by omega, by simpa using h3.2⟩

/-- C3: the claim fails: the sanitizer doubles the backslash of each truncated
escape, but the resulting text still contains the truncated-escape pattern
(now preceded by the doubled literal backslash), so "no truncated escape
remaining" is false.  For the input `\u12` the output `\\u12` still contains
the pattern `\u12` at position 1. -/
theorem C3_sanitize_counterexample :
    containsTrunc ("\\u12".data) = true ∧
    sanitizeString (some "\\u12") = some "\\\\u12" ∧
    containsTrunc ("\\\\u12".data) = true := by
  refine ⟨by decide, by decide, by decide⟩

/-- C3, amended: null/undefined (and, by the same falsy guard, empty) input
passes through unchanged; a string with no truncated escape is returned
unchanged; in the output every truncated-escape occurrence is immediately
preceded by a backslash (its doubled literal) instead of being absent; each
occurrence contributes exactly one inserted backslash; and the per-position
scan agrees with the regex global-replace scan. -/
theorem C3_sanitize_amended :
    sanitizeString none = none ∧
    (∀ s : String, containsTrunc s.data = false → sanitizeString (some s) = some s) ∧
    (∀ s : String, ∀ i : Nat,
       truncEscapeHead ((scanReplace s.data).drop i) = true →
       1 ≤ i ∧ (scanReplace s.data).get? (i - 1) = some '\\') ∧
    (∀ l : List Char, (scanReplace l).length = l.length + numOcc l) ∧
    (∀ l : List Char, scanReplace l = jsReplace l) := by
  refine ⟨rfl, ?_, ?_, length_scanReplace, scanReplace_eq_jsReplace⟩
  · intro s hs
    have he : sanitizeString (some s) =
        if s = "" then some s else some ⟨scanReplace s.data⟩ := rfl
    rw [he]
    by_cases h0 : s = ""
    · rw [if_pos h0]
    · rw [if_neg h0, scanReplace_of_not_contains hs]
  · intro s i h
    exact scanReplace_escaped s.data i h

/-- Witness for C3: the no-pattern string `ab` is unchanged, and in the
sanitized form of `a\u1` the occurrence at position 2 is preceded by the
doubled backslash at position 1. -/
theorem C3_sanitize_amended_w :
    sanitizeString (some "ab") = some "ab" ∧
    (1 ≤ 2 ∧ (scanReplace ("a\\u1".data)).get? (2 - 1) = some '\\') := by
  exact ⟨C3_sanitize_amended.2.1 "ab" (by decide),
         C3_sanitize_amended.2.2.1 "a\\u1" 2 (by decide)⟩

/-! ## Import-workflow lemmas -/

theorem sanitize_ne_empty {s : String} (h : s ≠ "") :
    (sanitizeString (some s)).getD "" ≠ "" := by
  have he : sanitizeString (some s) = some ⟨scanReplace s.data⟩ := by
    show (if s = "" then some s else some ⟨scanReplace s.data⟩) = _
    rw [if_neg h]
  rw [he]
  intro hc
  have hdata : scanReplace s.data = [] := congrArg String.data hc
  have h1 := length_le_scanReplace s.data
  rw [hdata] at h1
  have h2 : s.data = [] := List.length_eq_zero.mp (by simpa using h1)
  apply h
  cases s with
  | mk d =>
    have h3 : d = [] := h2
    subst h3
    rfl

theorem linksToCreate_eq (db : List String) (batch : List NormalizedLink) :
    linksToCreate db batch = batch.filter (fun l => !(db.contains l.shortLink)) := by
  unfold linksToCreate
  apply List.filter_congr
  intro x hx
  suffices h : ((alreadyCreatedLinks db batch).any (fun sl => sl == x.shortLink))
      = db.contains x.shortLink by rw [h]
  unfold alreadyCreatedLinks
  rw [Bool.eq_iff_iff]
  constructor
  · intro h
    rcases List.any_eq_true.mp h with ⟨a, ha, hak⟩
    have ha1 := (List.mem_filter.mp ha).1
    have ha2 : a = x.shortLink := by simpa using hak
    subst ha2
    exact List.elem_iff.mpr ha1
  · intro h
    refine List.any_eq_true.mpr
      ⟨x.shortLink, List.mem_filter.mpr ⟨List.elem_iff.mp h, ?_⟩, by simp⟩
    exact List.any_eq_true.mpr ⟨x, hx, by simp⟩

theorem length_filter_add_length_filter_not {α : Type} (p : α → Bool) (l : List α) :
    (l.filter p).length + (l.filter (fun a => !(p a))).length = l.length := by
  induction l with
  | nil => rfl
  | cons a l ih =>
    by_cases h : p a = true <;> simp [List.filter_cons, h] <;> omega

theorem mem_validAliases_isSome {env : JsEnv} {domains : List String} {link : BitlyLink}
    {cb : String} (h : cb ∈ validAliases env domains link) :
    (env.parseURL cb).isSome = true := by
  unfold validAliases at h
  have h2 := (List.mem_filter.mp h).2
  cases hp : env.parseURL cb with
  | none => rw [hp] at h2; simp at h2
  | some u => simp

theorem filterMap_id_map_length {α β : Type} (f : α → Option β) (l : List α)
    (h : ∀ x ∈ l, (f x).isSome = true) :
    ((l.map f).filterMap id).length = l.length := by
  induction l with
  | nil => rfl
  | cons a l ih =>
    cases hf : f a with
    | none => exact absurd (h a (by simp)) (by simp [hf])
    | some b =>
      rw [List.map_cons, List.filterMap_cons]
      simp only [id, hf]
      have hmem : ∀ x ∈ l, (f x).isSome = true := by
        intro x hx
        exact h x (List.mem_cons_of_mem a hx)
      have ih2 := ih hmem
      show (b :: (l.map f).filterMap id).length = (a :: l).length
      rw [List.length_cons, List.length_cons, ih2]

theorem processLink_eq (env : JsEnv) (workspaceId userId : String)
    (domains : List String) (folderId : Option String)
    (tagsToId : Option (List (String × String))) (link : BitlyLink)
    (hid : link.id ≠ "") (hurl : link.long_url ≠ "")
    (hdom : domains.contains ((jsSplitSlash link.id).headD "") = true) :
    processLink env workspaceId userId domains folderId tagsToId link
      = primaryOf env workspaceId userId folderId tagsToId link
        :: ((validAliases env domains link).map
              (aliasEntry env (primaryOf env workspaceId userId folderId tagsToId link))).filterMap id := by
  unfold processLink
  rw [if_neg (by simp [hid, hurl]), if_neg (by rw [hdom]; decide),
      if_neg (by simpa using sanitize_ne_empty hurl)]

/-- C4: the dedupe step passes to bulk-insert exactly the batch entries whose
short link matches no stored record, i.e. `K - J` of the `K` entries, where
`J` is the number whose short link is already present. -/
theorem C4_dedup_partition (db : List String) (batch : List NormalizedLink) :
    linksToCreate db batch = batch.filter (fun l => !(db.contains l.shortLink)) ∧
    (linksToCreate db batch).length
      = batch.length - (batch.filter (fun l => db.contains l.shortLink)).length := by
  refine ⟨linksToCreate_eq db batch, ?_⟩
  rw [linksToCreate_eq db batch]
  have h := length_filter_add_length_filter_not (fun l => db.contains l.shortLink) batch
  omega

/-- C9: deduplication is only against persistence, not within the batch: for a
short link absent from the store, every batch entry carrying it (duplicates
included) survives to the bulk-insert call. -/
theorem C9_no_batch_dedup (db : List String) (batch : List NormalizedLink) (s : String)
    (h : db.contains s = false) :
    ((linksToCreate db batch).filter (fun l => l.shortLink == s)).length
      = (batch.filter (fun l => l.shortLink == s)).length := by
  rw [linksToCreate_eq, List.filter_filter]
  congr 1
  apply List.filter_congr
  intro x hx
  by_cases hs : x.shortLink = s
  · rw [hs, h]
    simp
  · simp [hs]

/-- Witness for C9: a batch with the same unseen short link twice keeps both
entries. -/
theorem C9_no_batch_dedup_w :
    ((linksToCreate ["d.co/other"] [cNorm, cNorm]).filter
        (fun l => l.shortLink == "d.co/k")).length
      = (([cNorm, cNorm] : List NormalizedLink).filter
          (fun l => l.shortLink == "d.co/k")).length ∧
    (([cNorm, cNorm] : List NormalizedLink).filter
        (fun l => l.shortLink == "d.co/k")).length = 2 :=
  ⟨C9_no_batch_dedup ["d.co/other"] [cNorm, cNorm] "d.co/k" (by decide), by decide⟩

/-- C5: for a record passing the id/URL/domain guards, the transform yields the
primary entry followed by one entry per custom bitlink that parses as a URL
with a hostname among the claimed domains — `1 + M` entries in total — and
every produced entry carries the sanitized primary target URL; invalid or
foreign aliases are dropped without affecting the rest. -/
theorem C5_alias_expansion (env : JsEnv) (workspaceId userId : String)
    (domains : List String) (folderId : Option String)
    (tagsToId : Option (List (String × String))) (link : BitlyLink)
    (hid : link.id ≠ "") (hurl : link.long_url ≠ "")
    (hdom : domains.contains ((jsSplitSlash link.id).headD "") = true) :
    processLink env workspaceId userId domains folderId tagsToId link
      = primaryOf env workspaceId userId folderId tagsToId link
        :: ((validAliases env domains link).map
              (aliasEntry env (primaryOf env workspaceId userId folderId tagsToId link))).filterMap id
    ∧ (processLink env workspaceId userId domains folderId tagsToId link).length
        = 1 + (validAliases env domains link).length
    ∧ ∀ e ∈ processLink env workspaceId userId domains folderId tagsToId link,
        e.url = (sanitizeString (some link.long_url)).getD "" := by
  have hpl := processLink_eq env workspaceId userId domains folderId tagsToId link hid hurl hdom
  have hall : ∀ cb ∈ validAliases env domains link,
      (aliasEntry env (primaryOf env workspaceId userId folderId tagsToId link) cb).isSome = true := by
    intro cb hcb
    have hs := mem_validAliases_isSome hcb
    unfold aliasEntry
    cases hp : env.parseURL cb with
    | none => rw [hp] at hs; simp at hs
    | some u => simp
  refine ⟨hpl, ?_, ?_⟩
  · rw [hpl]
    have hlen := filterMap_id_map_length
      (aliasEntry env (primaryOf env workspaceId userId folderId tagsToId link))
      (validAliases env domains link) hall
    rw [List.length_cons, hlen]
    omega
  · intro e he
    rw [hpl] at he
    rcases List.mem_cons.mp he with rfl | he2
    · rfl
    · rcases List.mem_filterMap.mp he2 with ⟨o, ho, hoe⟩
      rcases List.mem_map.mp ho with ⟨cb, hcb, rfl⟩
      unfold aliasEntry at hoe
      cases hp : env.parseURL cb with
      | none => rw [hp] at hoe; simp at hoe
      | some u =>
        rw [hp] at hoe
        simp only [id, Option.some.injEq] at hoe
        rw [← hoe]
        rfl

/-- Witness for C5: three custom bitlinks, of which one is on a claimed
domain, one on a foreign host and one unparseable, give `1 + 1` entries. -/
theorem C5_alias_expansion_w :
    (processLink cAliasEnv "ws1" "u1" ["d.co"] none none cLinkAliases).length
      = 1 + (validAliases cAliasEnv ["d.co"] cLinkAliases).length ∧
    (validAliases cAliasEnv ["d.co"] cLinkAliases).length = 1 :=
  ⟨(C5_alias_expansion cAliasEnv "ws1" "u1" ["d.co"] none none cLinkAliases
      (by decide) (by decide) (by decide)).2.1, by decide⟩

/-- C10: the "URL empty after sanitization" discard branch is dead code:
`processLink` coincides with its variant lacking the branch, because a record
reaching it has a non-empty URL and the sanitizer never shrinks a string, so
the sanitized URL of a non-empty URL is non-empty. -/
theorem C10_empty_url_unreachable :
    (∀ (env : JsEnv) (workspaceId userId : String) (domains : List String)
       (folderId : Option String) (tagsToId : Option (List (String × String)))
       (link : BitlyLink),
       processLink env workspaceId userId domains folderId tagsToId link
         = processLinkNoEmptyGuard env workspaceId userId domains folderId tagsToId link) ∧
    (∀ s : String, s ≠ "" → (sanitizeString (some s)).getD "" ≠ "") := by
  refine ⟨?_, fun s hs => sanitize_ne_empty hs⟩
  intro env workspaceId userId domains folderId tagsToId link
  unfold processLink processLinkNoEmptyGuard
  by_cases h1 : (link.id == "" || link.long_url == "") = true
  · rw [if_pos h1, if_pos h1]
  · rw [if_neg h1, if_neg h1]
    by_cases h2 : (!(domains.contains ((jsSplitSlash link.id).headD ""))) = true
    · rw [if_pos h2, if_pos h2]
    · rw [if_neg h2, if_neg h2]
      have hurl : link.long_url ≠ "" := by
        intro hc
        apply h1
        simp [hc]
      rw [if_neg (by simpa using sanitize_ne_empty hurl)]

/-- Witness for C10: a concrete record takes the same value through both
variants, and sanitizing the non-empty string `x` is non-empty. -/
theorem C10_empty_url_unreachable_w :
    processLink cEnv "ws1" "u1" ["d.co"] none none cLinkPlain
      = processLinkNoEmptyGuard cEnv "ws1" "u1" ["d.co"] none none cLinkPlain ∧
    (sanitizeString (some "x")).getD "" ≠ "" :=
  ⟨C10_empty_url_unreachable.1 cEnv "ws1" "u1" ["d.co"] none none cLinkPlain,
   C10_empty_url_unreachable.2 "x" (by decide)⟩

/-! ## Continuation and finalization theorems -/

/-- C2, corrected: the claim says the continuation body carries every field of
the original request, including the tag mapping and the provider API key.  It
does not: two runs differing only in the API key and in the tag mapping
publish the same message (the body holds only the boolean `importTags` flag),
so neither the key nor the mapping is carried. -/
theorem C2_continuation_counterexample :
    importLinksFromBitly cEnv "ws1" "u1" "grp" ["d.co"] none (some [("t", "tagA")])
        "KEY-A" none 0 cPageMore [] [] none
      = importLinksFromBitly cEnv "ws1" "u1" "grp" ["d.co"] none (some [("t", "tagB")])
          "KEY-B" none 0 cPageMore [] [] none
    ∧ Option.map (fun e => e.published)
        (importLinksFromBitly cEnv "ws1" "u1" "grp" ["d.co"] none (some [("t", "tagA")])
          "KEY-A" none 0 cPageMore [] [] none)
      = some (some cMsgMore)
    ∧ ("KEY-A" : String) ≠ "KEY-B"
    ∧ (some [("t", "tagA")] : Option (List (String × String))) ≠ some [("t", "tagB")] := by
  refine ⟨rfl, rfl, by decide, by decide⟩

/-- C2, amended: on a non-empty next cursor the invocation publishes exactly
one message to the fixed internal continuation endpoint whose body carries
workspaceId, userId, bitlyGroup, domains and folderId unchanged, a boolean
`importTags` flag recording whether a tag mapping was supplied (not the
mapping itself, and not the provider API key), the updated cursor and the
updated running count; and it performs no finalization side effects — no
key-value deletes, no tag cleanup, no email — and returns no count. -/
theorem C2_continuation_amended (env : JsEnv) (workspaceId userId bitlyGroup : String)
    (domains : List String) (folderId : Option String)
    (tagsToId : Option (List (String × String))) (bitlyApiKey : String)
    (searchAfter : Option String) (count : Nat) (page : ImportPage) (db : List String)
    (tagTable : List Tag) (workspace : Option WorkspaceInfo)
    (hcur : page.search_after ≠ "") :
    importLinksFromBitly env workspaceId userId bitlyGroup domains folderId tagsToId
        bitlyApiKey searchAfter count page db tagTable workspace
      = some { bulkCreated := linksToCreate db
                 (page.links.bind (processLink env workspaceId userId domains folderId tagsToId))
               redisDeleted := []
               tagsAfter := tagTable
               emailSent := none
               published := some
                 { url := APP_DOMAIN_WITH_NGROK ++ "/api/cron/import/bitly"
                   body := { workspaceId := workspaceId
                             userId := userId
                             bitlyGroup := bitlyGroup
                             domains := domains
                             folderId := folderId
                             importTags := tagsToId.isSome
                             searchAfter := page.search_after
                             count := count +
                               (page.links.bind (processLink env workspaceId userId domains
                                 folderId tagsToId)).length } }
               returned := none } := by
  simp only [importLinksFromBitly]
  rw [if_neg hcur]

/-- Witness for C2: a concrete continuation run publishes the expected message
and performs no finalization effects. -/
theorem C2_continuation_amended_w :
    importLinksFromBitly cEnv "ws1" "u1" "grp" ["d.co"] none (some [("t", "tagA")])
        "KEY-A" none 0 cPageMore [] [] none
      = some { bulkCreated := [], redisDeleted := [], tagsAfter := [], emailSent := none,
               published := some cMsgMore, returned := none } := by
  have h := C2_continuation_amended cEnv "ws1" "u1" "grp" ["d.co"] none
    (some [("t", "tagA")]) "KEY-A" none 0 cPageMore [] [] none (by decide)
  exact h.trans (by decide)

/-- C6: on an empty next cursor the invocation deletes exactly the two flag
keys `import:bitly:{workspaceId}` and `import:bitly:{workspaceId}:tags`,
deletes exactly the workspace's tags with zero associated links, sends the
completion email to the workspace owner's address with the cumulative count
and the domain list, publishes nothing, and returns the cumulative count. -/
theorem C6_finalization (env : JsEnv) (workspaceId userId bitlyGroup : String)
    (domains : List String) (folderId : Option String)
    (tagsToId : Option (List (String × String))) (bitlyApiKey : String)
    (searchAfter : Option String) (count : Nat) (page : ImportPage) (db : List String)
    (tagTable : List Tag) (w : WorkspaceInfo) (u0 : Option String) (us : List (Option String))
    (hcur : page.search_after = "") (hu : w.users = u0 :: us) :
    importLinksFromBitly env workspaceId userId bitlyGroup domains folderId tagsToId
        bitlyApiKey searchAfter count page db tagTable (some w)
      = some { bulkCreated := linksToCreate db
                 (page.links.bind (processLink env workspaceId userId domains folderId tagsToId))
               redisDeleted := ["import:bitly:" ++ workspaceId,
                                "import:bitly:" ++ workspaceId ++ ":tags"]
               tagsAfter := tagTable.filter (fun t =>
                 !(t.projectId == workspaceId && t.linkCount == 0))
               emailSent := some
                 { subject := "Your Bitly links have been imported!"
                   email := u0.getD ""
                   provider := "Bitly"
                   count := count + (page.links.bind (processLink env workspaceId userId domains
                     folderId tagsToId)).length
                   links := w.links
                   domains := domains
                   workspaceName := w.name
                   workspaceSlug := w.slug }
               published := none
               returned := some (count + (page.links.bind (processLink env workspaceId userId
                 domains folderId tagsToId)).length) } := by
  simp only [importLinksFromBitly]
  rw [if_pos hcur, hu]

/-- Witness for C6: a concrete finalization run deletes the two flag keys and
the workspace's zero-link tag, emails the owner with count 1 and the domain
list, and returns 1. -/
theorem C6_finalization_w :
    importLinksFromBitly cEnv "ws1" "u1" "grp" ["d.co"] none none "KEY" none 0
        cPageDone ["d.co/k"] cTags (some cWorkspace)
      = some { bulkCreated := []
               redisDeleted := ["import:bitly:ws1", "import:bitly:ws1:tags"]
               tagsAfter := [⟨"ws1", 2⟩, ⟨"other", 0⟩]
               emailSent := some
                 { subject := "Your Bitly links have been imported!"
                   email := "owner@acme.io"
                   provider := "Bitly"
                   count := 1
                   links := [⟨"d.co", "k", "2024-01-01"⟩]
                   domains := ["d.co"]
                   workspaceName := "Acme"
                   workspaceSlug := "acme" }
               published := none
               returned := some 1 } := by
  have h := C6_finalization cEnv "ws1" "u1" "grp" ["d.co"] none none "KEY" none 0
    cPageDone ["d.co/k"] cTags cWorkspace (some "owner@acme.io") [] (by decide) (by decide)
  exact h.trans (by decide)

/-- C8: the running count grows by the number of links the transform produced,
duplicates included — the published continuation count, the returned count and
the emailed count all equal `count + importedLinks.length` — while the batch
passed to bulk-insert is only the deduplicated subset, so the reported count
can exceed the number of records inserted. -/
theorem C8_count_accounting (env : JsEnv) (workspaceId userId bitlyGroup : String)
    (domains : List String) (folderId : Option String)
    (tagsToId : Option (List (String × String))) (bitlyApiKey : String)
    (searchAfter : Option String) (count : Nat) (page : ImportPage) (db : List String)
    (tagTable : List Tag) (workspace : Option WorkspaceInfo) (eff : ImportEffects)
    (heff : importLinksFromBitly env workspaceId userId bitlyGroup domains folderId tagsToId
        bitlyApiKey searchAfter count page db tagTable workspace = some eff) :
    eff.bulkCreated = linksToCreate db
        (page.links.bind (processLink env workspaceId userId domains folderId tagsToId)) ∧
    (∀ msg, eff.published = some msg → msg.body.count = count +
        (page.links.bind (processLink env workspaceId userId domains folderId tagsToId)).length) ∧
    (∀ n, eff.returned = some n → n = count +
        (page.links.bind (processLink env workspaceId userId domains folderId tagsToId)).length) ∧
    (∀ em, eff.emailSent = some em → em.count = count +
        (page.links.bind (processLink env workspaceId userId domains folderId tagsToId)).length) := by
  by_cases hcur : page.search_after = ""
  · cases workspace with
    | none =>
      simp only [importLinksFromBitly] at heff
      rw [if_pos hcur] at heff
      obtain rfl := (Option.some.inj heff).symm
      refine ⟨rfl, ?_, ?_, ?_⟩
      · intro msg hmsg
        exact absurd hmsg (by simp)
      · intro n hn
        exact (Option.some.inj hn).symm
      · intro em hem
        rw [← Option.some.inj hem]
    | some w =>
      cases hu : w.users with
      | nil =>
        simp only [importLinksFromBitly] at heff
        rw [if_pos hcur, hu] at heff
        exact Option.noConfusion heff
      | cons u0 us =>
        simp only [importLinksFromBitly] at heff
        rw [if_pos hcur, hu] at heff
        obtain rfl := (Option.some.inj heff).symm
        refine ⟨rfl, ?_, ?_, ?_⟩
        · intro msg hmsg
          exact absurd hmsg (by simp)
        · intro n hn
          exact (Option.some.inj hn).symm
        · intro em hem
          rw [← Option.some.inj hem]
  · simp only [importLinksFromBitly] at heff
    rw [if_neg hcur] at heff
    obtain rfl := (Option.some.inj heff).symm
    refine ⟨rfl, ?_, ?_, ?_⟩
    · intro msg hmsg
      rw [← Option.some.inj hmsg]
    · intro n hn
      exact absurd hn (by simp)
    · intro em hem
      exact absurd hem (by simp)

/-- Witness for C8: a page with one record whose short link is already stored
finishes with returned count 1 although zero records were inserted. -/
theorem C8_count_accounting_w :
    cEffDup.bulkCreated = linksToCreate ["d.co/k"]
        (cPageDone.links.bind (processLink cEnv "ws1" "u1" ["d.co"] none none)) ∧
    ((1 : Nat) = 0 +
        (cPageDone.links.bind (processLink cEnv "ws1" "u1" ["d.co"] none none)).length) ∧
    cEffDup.bulkCreated.length = 0 := by
  have h := C8_count_accounting cEnv "ws1" "u1" "grp" ["d.co"] none none "KEY" none 0
    cPageDone ["d.co/k"] [] none cEffDup (by decide)
  exact ⟨h.1, h.2.2.1 1 (by decide), by decide⟩

/-! ## Schema theorems -/

theorem isSome_ite {α : Type} (P : Prop) [Decidable P] (x : α) :
    (if P then some x else none).isSome = decide P := by
  by_cases h : P <;> simp [h]

theorem zCustomerId_isSome (c : Option Json) :
    (zCustomerId c).isSome
      = (match c with
         | some (.str s) => decide (1 ≤ (jsTrim s).length ∧ (jsTrim s).length ≤ 100)
         | _ => false) := by
  cases c with
  | none => rfl
  | some j =>
    cases j with
    | str s => exact isSome_ite _ _
    | null => rfl
    | bool b => rfl
    | num q => rfl
    | arr xs => rfl
    | obj f => rfl

theorem zAmount_isSome (a : Option Json) :
    (zAmount a).isSome
      = (match a with
         | some (.num q) => decide (q.den = 1 ∧ 0 < q)
         | _ => false) := by
  cases a with
  | none => rfl
  | some j =>
    cases j with
    | num q => exact isSome_ite _ _
    | null => rfl
    | bool b => rfl
    | str s => rfl
    | arr xs => rfl
    | obj f => rfl

theorem zPaymentProcessor_isSome (p : Option Json) :
    (zPaymentProcessor p).isSome
      = (match p with
         | some (.str s) => decide (s = "stripe" ∨ s = "shopify" ∨ s = "paddle")
         | _ => false) := by
  cases p with
  | none => rfl
  | some j =>
    cases j with
    | str s => exact isSome_ite _ _
    | null => rfl
    | bool b => rfl
    | num q => rfl
    | arr xs => rfl
    | obj f => rfl

theorem claimAccepts_eq (c a p : Option Json) :
    claimAcceptsTrackSale c a p
      = ((zCustomerId c).isSome && (zAmount a).isSome && (zPaymentProcessor p).isSome) := by
  rw [zCustomerId_isSome, zAmount_isSome, zPaymentProcessor_isSome]
  rfl

/-- C7: for a request body whose optional keys are omitted, the track-sale
schema accepts exactly when customerId is a string non-empty after trimming
and of trimmed length at most 100, amount is a positive integer and
paymentProcessor is one of stripe/shopify/paddle; and on success the defaults
are filled in: eventName `Purchase`, invoiceId null, currency `usd`, metadata
null, with customerId stored trimmed. -/
theorem C7_trackSale_requiredOnly (c a p : Option Json) :
    ((parseTrackSale ⟨c, a, p, none, none, none, none⟩).isSome
        = claimAcceptsTrackSale c a p) ∧
    (∀ r, parseTrackSale ⟨c, a, p, none, none, none, none⟩ = some r →
       r.eventName = "Purchase" ∧ r.invoiceId = none ∧ r.currency = "usd" ∧
       r.metadata = none ∧ (∀ s, c = some (.str s) → r.customerId = jsTrim s)) := by
  constructor
  · rw [claimAccepts_eq]
    cases hc : zCustomerId c <;> cases ha : zAmount a <;> cases hp : zPaymentProcessor p <;>
      simp [parseTrackSale, hc, ha, hp, zEventName, zInvoiceId, zCurrency, zMetadata]
  · intro r hr
    cases hc : zCustomerId c with
    | none => simp [parseTrackSale, hc] at hr
    | some cid =>
      cases ha : zAmount a with
      | none => simp [parseTrackSale, hc, ha] at hr
      | some amt =>
        cases hp : zPaymentProcessor p with
        | none => simp [parseTrackSale, hc, ha, hp] at hr
        | some pp =>
          have hpe : parseTrackSale ⟨c, a, p, none, none, none, none⟩
              = some { customerId := cid, amount := amt, paymentProcessor := pp,
                       eventName := "Purchase", invoiceId := none, currency := "usd",
                       metadata := none } := by
            simp [parseTrackSale, hc, ha, hp, zEventName, zInvoiceId, zCurrency, zMetadata]
          have hre : r = { customerId := cid, amount := amt, paymentProcessor := pp,
                           eventName := "Purchase", invoiceId := none, currency := "usd",
                           metadata := none } :=
            (Option.some.inj (hpe.symm.trans hr)).symm
          subst hre
          refine ⟨rfl, rfl, rfl, rfl, ?_⟩
          intro s hs
          subst hs
          have hce : zCustomerId (some (.str s))
              = (if 1 ≤ (jsTrim s).length ∧ (jsTrim s).length ≤ 100
                 then some (jsTrim s) else none) := rfl
          rw [hce] at hc
          split at hc
          · exact (Option.some.inj hc).symm
          · exact Option.noConfusion hc

/-- Witness for C7: body `{customerId: " cust1 ", amount: 500,
paymentProcessor: "stripe"}` is accepted; the parse fills the defaults and
trims the customer id. -/
theorem C7_trackSale_requiredOnly_w :
    (parseTrackSale ⟨some (.str " cust1 "), some (.num 500), some (.str "stripe"),
        none, none, none, none⟩).isSome = true ∧
    (parseTrackSale ⟨some (.str " cust1 "), some (.num 500), some (.str "stripe"),
        none, none, none, none⟩).map (fun r => r.eventName) = some "Purchase" ∧
    (parseTrackSale ⟨some (.str " cust1 "), some (.num 500), some (.str "stripe"),
        none, none, none, none⟩).map (fun r => r.customerId) = some "cust1" := by
  have h := C7_trackSale_requiredOnly (some (.str " cust1 ")) (some (.num 500))
    (some (.str "stripe"))
  have hr : parseTrackSale ⟨some (.str " cust1 "), some (.num 500), some (.str "stripe"),
      none, none, none, none⟩
      = some { customerId := "cust1", amount := 500, paymentProcessor := "stripe",
               eventName := "Purchase", invoiceId := none, currency := "usd",
               metadata := none } := rfl
  obtain ⟨he, hi, hcu, hm, hcid⟩ := h.2 _ hr
  refine ⟨h.1.trans (by decide), ?_, ?_⟩
  · rw [hr]
    exact congrArg some he
  · rw [hr]
    exact congrArg some (hcid " cust1 " rfl)

/-- C1, corrected: the sale-event response schema does not enforce the
deprecated-field equalities; the concrete accepted response `cSaleEvent` has
`saleAmount` 5 against `sale.amount` 3, a top-level `invoice_id` against a
null `sale.invoiceId`, and `payment_processor` `paypal` (not even a member of
the processor enum) against `sale.paymentProcessor` `stripe`. -/
theorem C1_saleEvent_counterexample :
    saleEventAccepts cSaleEvent = true ∧
    topSaleAmount cSaleEvent ≠ nestedSaleAmount cSaleEvent ∧
    topInvoiceId cSaleEvent ≠ nestedInvoiceId cSaleEvent ∧
    topPaymentProcessor cSaleEvent ≠ nestedPaymentProcessor cSaleEvent := by
  refine ⟨by decide, by decide, by decide, by decide⟩

/-- C1, amended: the schema constrains the deprecated fields only by type —
`saleAmount` any number, `invoice_id` any string, `payment_processor` any
string — independently of the nested `sale` object: replacing them with
arbitrary well-typed values preserves acceptance, so the equality with the
canonical nested fields is an obligation of response producers, not enforced
by the schema. -/
theorem C1_saleEvent_deprecated_typed (r : RawSaleEvent)
    (h : saleEventAccepts r = true) :
    isNumField r.saleAmount = true ∧ isStrField r.invoice_id = true ∧
    isStrField r.payment_processor = true ∧
    ∀ (q : Rat) (s1 s2 : String),
      saleEventAccepts { r with saleAmount := some (.num q),
                                invoice_id := some (.str s1),
                                payment_processor := some (.str s2) } = true := by
  unfold saleEventAccepts at h
  simp only [Bool.and_eq_true] at h
  obtain ⟨⟨⟨⟨⟨⟨⟨⟨⟨hA, hB⟩, hC⟩, hD⟩, hE⟩, hF⟩, hG⟩, hH⟩, hI⟩, hJ⟩ := h
  refine ⟨hH, hI, hJ, ?_⟩
  intro q s1 s2
  unfold saleEventAccepts
  simp only [Bool.and_eq_true]
  exact ⟨⟨⟨⟨⟨⟨⟨⟨⟨hA, hB⟩, hC⟩, hD⟩, hE⟩, hF⟩, hG⟩, rfl⟩, rfl⟩, rfl⟩

/-- Witness for C1: the accepted `cSaleEvent` keeps being accepted after its
deprecated fields are replaced by unrelated well-typed values. -/
theorem C1_saleEvent_deprecated_typed_w :
    isNumField cSaleEvent.saleAmount = true ∧
    saleEventAccepts { cSaleEvent with
                       saleAmount := some (.num 7),
                       invoice_id := some (.str "inv-B"),
                       payment_processor := some (.str "manual") } = true := by
  have h := C1_saleEvent_deprecated_typed cSaleEvent (by decide)
  exact ⟨h.1, h.2.2.2 7 "inv-B" "manual"⟩
